import Mathlib

/-!
Verification of the authentication backend (Django app `authentication`):
shallow embedding of models.py, serializers.py and views.py, followed by
theorems about the login, audit, password-change and password-reset-token
behaviour.  Machine state is explicit (`DbState`), time is a natural number
of seconds, and every external collaborator (password hashing, random string
generation, session layer) is modelled by an explicit definition or
parameter, each marked in its doc comment.
-/

namespace KwantumAuth

/-- Modelled external collaborator (spec: password hashing,
`hash(plaintext) -> digest`): an injective digest function. -/
def hashPw (pw : String) : String := "pbkdf2:" ++ pw

/-- Modelled external collaborator (spec: password hashing,
`verify(plaintext, digest) -> bool`), used by `authenticate` and
`User.check_password`. -/
def checkPassword (pw digest : String) : Bool := hashPw pw == digest

/-- The 62-character default alphabet of `django.utils.crypto.get_random_string`
(ascii letters and digits). -/
def alphanumChars : List Char :=
  "abcdefghijklmnopqrstuvwxyzABCDEFGHIJKLMNOPQRSTUVWXYZ0123456789".toList

/-- Modelled external collaborator (`django.utils.crypto.get_random_string`,
called in views.py line 298 with length 64): returns `n` characters drawn
from the 62-character alphanumeric alphabet, the randomness source being
modelled by the explicit `entropy` value (base-62 digits of `entropy`). -/
def getRandomString (n : Nat) (entropy : Nat) : String :=
  String.mk ((List.range n).map (fun i => alphanumChars.getD ((entropy / 62 ^ i) % 62) 'a'))

/-- The relevant fields of `django.contrib.auth.models.User` (the Account of
the spec): unique username and email, hashed password, active flag. -/
structure Account where
  id : Nat
  username : String
  email : String
  passwordHash : String
  isActive : Bool
deriving Repr, DecidableEq

/-- `PasswordResetToken` (models.py lines 131-174): owning user, unique token
string, used flag (default false), expiry and creation timestamps. -/
structure ResetToken where
  userId : Nat
  token : String
  isUsed : Bool
  expiresAt : Nat
  createdAt : Nat
deriving Repr, DecidableEq

/-- `LoginAttempt` (models.py lines 82-123): username as submitted, source
address, user agent, success flag, server-set timestamp. -/
structure LoginAttemptRec where
  username : String
  ipAddress : String
  userAgent : String
  success : Bool
  timestamp : Nat
deriving Repr, DecidableEq

/-- A DRF `Token` row (`rest_framework.authtoken.models.Token`): the opaque
bearer credential issued at login/registration/password change. -/
structure ApiToken where
  userId : Nat
  key : String
deriving Repr, DecidableEq

/-- The database state seen by the views, plus the current time in seconds
(`timezone.now()`). -/
structure DbState where
  accounts : List Account
  resetTokens : List ResetToken
  loginAttempts : List LoginAttemptRec
  apiTokens : List ApiToken
  now : Nat
deriving Repr, DecidableEq

/-- `PasswordResetToken.is_expired` (models.py lines 180-183):
`timezone.now() > self.expires_at`, a strict comparison. -/
def ResetToken.is_expired (t : ResetToken) (now : Nat) : Bool :=
  decide (t.expiresAt < now)

/-- `PasswordResetToken.is_valid` (models.py lines 185-188):
`not self.is_used and not self.is_expired`. -/
def ResetToken.is_valid (t : ResetToken) (now : Nat) : Bool :=
  !t.isUsed && !(t.is_expired now)

/-- The two error classes of the token-manager `validate` operation as the
serializer distinguishes them (serializers.py lines 336-364):
`tokenNotFound` is the `PasswordResetToken.DoesNotExist` branch (message
"Invalid token."), `tokenInvalid` the `not token_obj.is_valid` branch
(message "Token is invalid or has expired."). -/
inductive TokenError
  | tokenNotFound
  | tokenInvalid
deriving Repr, DecidableEq

/-- Error classes raised by `LoginSerializer.validate`
(serializers.py lines 67-105). -/
inductive LoginError
  | invalidCredentials
  | accountDisabled
  | missingFields
deriving Repr, DecidableEq

/-- Error classes of the reset-confirm flow: the serializer's token field
errors and the object-level password-confirmation mismatch. -/
inductive ConfirmError
  | tokenErr (e : TokenError)
  | passwordMismatch
deriving Repr, DecidableEq

/-- Error classes of `PasswordChangeSerializer`
(serializers.py lines 190-256). -/
inductive PasswordChangeError
  | wrongOldPassword
  | passwordMismatch
deriving Repr, DecidableEq

/-- The user-facing shape of a view response: success flag, message, and the
list of serializer error strings. -/
structure ApiResponse where
  success : Bool
  message : String
  errors : List String
deriving Repr, DecidableEq

/-- Modelled external collaborator (`django.contrib.auth.authenticate` over
the Account store): look the account up by username and verify the submitted
password against the stored hash. -/
def authenticateUser (s : DbState) (username password : String) : Option Account :=
  s.accounts.find? (fun a => a.username == username && checkPassword password a.passwordHash)

/-- Embeds `LoginSerializer.validate` (serializers.py lines 67-105): both
fields must be non-empty (Python truthiness of `if username and password`),
`authenticate` must return a user ("Invalid username or password."), and the
user must be active ("User account is disabled."). -/
def loginValidate (s : DbState) (username password : String) : Except LoginError Account :=
  if username == "" || password == "" then
    .error .missingFields
  else
    match authenticateUser s username password with
    | none => .error .invalidCredentials
    | some u => if !u.isActive then .error .accountDisabled else .ok u

/-- Embeds `PasswordResetConfirmSerializer.validate_token`
(serializers.py lines 336-364) together with the view's subsequent
`token_obj.user` access: the token-manager `validate` operation, returning
the owning account id on success. -/
def validateToken (s : DbState) (tok : String) : Except TokenError Nat :=
  match s.resetTokens.find? (fun t => t.token == tok) with
  | none => .error .tokenNotFound
  | some t => if t.is_valid s.now then .ok t.userId else .error .tokenInvalid

/-- Embeds `PasswordResetRequestSerializer.validate_email`
(serializers.py lines 270-288): the email passes validation iff
`User.objects.filter(email=value, is_active=True).exists()`. -/
def validateResetEmail (s : DbState) (email : String) : Bool :=
  s.accounts.any (fun a => a.email == email && a.isActive)

/-- `user.set_password(new_password); user.save()`: store the hash of the
new password on the account with the given id. -/
def setPassword (s : DbState) (uid : Nat) (pw : String) : DbState :=
  { s with accounts :=
      s.accounts.map (fun a => if a.id == uid then { a with passwordHash := hashPw pw } else a) }

/-- `token_obj.is_used = True; token_obj.save()`: mark the stored token row
with the given token string as used. -/
def markTokenUsed (s : DbState) (tok : String) : DbState :=
  { s with resetTokens :=
      s.resetTokens.map (fun t => if t.token == tok then { t with isUsed := true } else t) }

/-- Embeds `PasswordResetRequestView.post` (views.py lines 279-346).  When the
serializer accepts the email: fetch the user by email, draw a 64-character
random token, delete every reset token of that user, then insert the new row
(`expires_at = now + 24 hours`).  The insert respects the `unique=True`
constraint on the token column (models.py line 148): a collision with a
surviving row raises, leaving only the deletion applied and producing a
server error.  The mail send is external and best-effort.  When the
serializer rejects the email the view answers 400 with the serializer
error and the state is untouched. -/
def passwordResetRequestPost (s : DbState) (email : String) (entropy : Nat) :
    DbState × ApiResponse :=
  if validateResetEmail s email then
    match s.accounts.find? (fun a => a.email == email) with
    | some u =>
      let tok := getRandomString 64 entropy
      let s1 : DbState :=
        { s with resetTokens := s.resetTokens.filter (fun t => t.userId != u.id) }
      if s1.resetTokens.any (fun t => t.token == tok) then
        (s1, ⟨false, "Server Error", []⟩)
      else
        ({ s1 with resetTokens :=
             s1.resetTokens ++ [⟨u.id, tok, false, s.now + 24 * 3600, s.now⟩] },
         ⟨true, "Password reset email sent successfully", []⟩)
    | none => (s, ⟨false, "Password reset request failed", []⟩)
  else
    (s, ⟨false, "Password reset request failed",
          ["No active user found with this email address."]⟩)

/-- Embeds `PasswordResetConfirmSerializer` validation followed by
`PasswordResetConfirmView.post` (views.py lines 358-397): field-level token
validation first (a field error suppresses the object-level check, per DRF),
then the new-password confirmation check; on success the view performs two
separate writes with no enclosing transaction: `user.save()` with the new
hash, then `token_obj.save()` with `is_used = True`. -/
def passwordResetConfirmPost (s : DbState) (tok newPw newPwConfirm : String) :
    DbState × Except ConfirmError Unit :=
  match validateToken s tok with
  | .error e => (s, .error (.tokenErr e))
  | .ok uid =>
    if newPw != newPwConfirm then
      (s, .error .passwordMismatch)
    else
      (markTokenUsed (setPassword s uid newPw) tok, .ok ())

/-- The state left by `PasswordResetConfirmView.post` when execution is
interrupted after the first write (`user.save()`, views.py line 382) and
before the second (`token_obj.save()`, views.py line 386); identical to the
pre-state on every non-success path. -/
def passwordResetConfirmAfterFirstWrite (s : DbState) (tok newPw newPwConfirm : String) :
    DbState :=
  match validateToken s tok with
  | .error _ => s
  | .ok uid => if newPw != newPwConfirm then s else setPassword s uid newPw

/-- The request data a login call sees: the two credential fields plus the
headers `_get_client_ip` and `_log_login_attempt` read. -/
structure HttpRequest where
  username : String
  password : String
  xForwardedFor : String
  remoteAddr : String
  userAgent : String
deriving Repr, DecidableEq

/-- Embeds the module-level function `_get_client_ip` (views.py lines
453-468): first entry of the forwarded-for header when present, else the
direct connection address. -/
def getClientIp (req : HttpRequest) : String :=
  if req.xForwardedFor != "" then (req.xForwardedFor.splitOn ",").headD ""
  else req.remoteAddr

/-- The attribute names the class body of `LoginView` defines (views.py lines
30-112): its two methods.  The helper `_get_client_ip` is a module-level
function (views.py line 453), not a method of the class. -/
def loginViewAttrNames : List String := ["post", "_log_login_attempt"]

/-- Embeds `LoginView._log_login_attempt` (views.py lines 95-112).  The
`LoginAttempt.objects.create(...)` call sits inside `try/except Exception`.
Evaluating its `ip_address` argument performs the attribute lookup
`self._get_client_ip`; since that name is not an attribute of `LoginView`,
the lookup raises `AttributeError` before the row is inserted and the
handler swallows the exception (logging it), so no record is persisted. -/
def logLoginAttempt (s : DbState) (req : HttpRequest) (username : String) (success : Bool) :
    DbState :=
  if loginViewAttrNames.contains "_get_client_ip" then
    { s with loginAttempts :=
        s.loginAttempts ++ [⟨username, getClientIp req, req.userAgent, success, s.now⟩] }
  else
    s

/-- Embeds `LoginView.post` (views.py lines 39-93).  On valid credentials:
establish the session (external), `Token.objects.get_or_create(user=user)`
(`tokenKey` standing for the framework-generated key when a row is created),
log the attempt as successful, answer 200.  Otherwise: log the attempt as
failed and answer 400.  Profile retrieval does not change the state modelled
here and is elided. -/
def loginPost (s : DbState) (req : HttpRequest) (tokenKey : String) : DbState × ApiResponse :=
  match loginValidate s req.username req.password with
  | .ok u =>
    let s1 : DbState :=
      if s.apiTokens.any (fun t => t.userId == u.id) then s
      else { s with apiTokens := s.apiTokens ++ [⟨u.id, tokenKey⟩] }
    (logLoginAttempt s1 req req.username true, ⟨true, "Login successful", []⟩)
  | .error _ =>
    (logLoginAttempt s req req.username false, ⟨false, "Login failed", []⟩)

/-- Embeds `PasswordChangeSerializer` validation (old password verified
against the authenticated user's hash; the two new-password fields must
match) followed by `PasswordChangeView.post` (views.py lines 230-267): write
the new hash, `Token.objects.filter(user=user).delete()`, then
`Token.objects.get_or_create(user=user)` which creates a fresh row
(`freshKey` standing for the framework-generated key); its key is returned
in the response. -/
def passwordChangePost (s : DbState) (u : Account) (oldPw newPw newPwConfirm : String)
    (freshKey : String) : DbState × Except PasswordChangeError String :=
  if !checkPassword oldPw u.passwordHash then
    (s, .error .wrongOldPassword)
  else if newPw != newPwConfirm then
    (s, .error .passwordMismatch)
  else
    let s1 := setPassword s u.id newPw
    let s2 : DbState := { s1 with apiTokens := s1.apiTokens.filter (fun t => t.userId != u.id) }
    ({ s2 with apiTokens := s2.apiTokens ++ [⟨u.id, freshKey⟩] }, .ok freshKey)

/-- The operations of the reset-token lifecycle (spec: Reset Token Manager),
plus the passage of time. -/
inductive TokenOp
  | request (email : String) (entropy : Nat)
  | confirm (tok newPw newPwConfirm : String)
  | tick (dt : Nat)
deriving Repr, DecidableEq

/-- State transition of one lifecycle operation. -/
def applyOp (s : DbState) : TokenOp → DbState
  | .request email entropy => (passwordResetRequestPost s email entropy).1
  | .confirm tok npw npwc => (passwordResetConfirmPost s tok npw npwc).1
  | .tick dt => { s with now := s.now + dt }

/-- State after a sequence of lifecycle operations. -/
def applyOps (s : DbState) (ops : List TokenOp) : DbState := ops.foldl applyOp s

/-- All stored reset tokens owned by the given account. -/
def tokensOf (s : DbState) (uid : Nat) : List ResetToken :=
  s.resetTokens.filter (fun t => t.userId == uid)

/-- All active (unused, unexpired) stored reset tokens owned by the given
account. -/
def activeTokensOf (s : DbState) (uid : Nat) : List ResetToken :=
  s.resetTokens.filter (fun t => t.userId == uid && t.is_valid s.now)

/-- Invariant: every account owns at most one stored reset token. -/
def atMostOneTokenPerAccount (s : DbState) : Prop :=
  ∀ uid : Nat, (tokensOf s uid).length ≤ 1

/-- The account id a reset request for this email would act on: the email
must pass `validate_email`, and `User.objects.get(email=email)` is the first
account with that email. -/
def requestTarget (s : DbState) (email : String) : Option Nat :=
  if validateResetEmail s email then
    (s.accounts.find? (fun a => a.email == email)).map (fun a => a.id)
  else
    none

/-- After a consume of the token string, the store holds exactly one row with
that string, marked used and owned by the given account. -/
def consumedRecordState (s : DbState) (tokStr : String) (ownerId : Nat) : Prop :=
  (s.resetTokens.filter (fun t => t.token == tokStr)).map (fun t => (t.isUsed, t.userId)) =
    [(true, ownerId)]

/-- A one-account store: alice, active, with a known password. -/
def demoAlice : Account := ⟨1, "alice", "alice@example.com", hashPw "OldPass1", true⟩

/-- The store holding only alice, no tokens, at time 1000. -/
def demoState : DbState := ⟨[demoAlice], [], [], [], 1000⟩

/-- A deactivated account with a known password. -/
def demoCarol : Account := ⟨2, "carol", "carol@example.com", hashPw "CarolPw1", false⟩

/-- A store holding active alice and deactivated carol. -/
def demoStateTwo : DbState := ⟨[demoAlice, demoCarol], [], [], [], 1000⟩

/-- A stored reset token for alice: unused, expiring at time 2000. -/
def demoToken : ResetToken := ⟨1, "tok-alpha", false, 2000, 900⟩

/-- A store holding alice and her stored reset token, at time 1000. -/
def demoStateTok : DbState := ⟨[demoAlice], [demoToken], [], [], 1000⟩

/-- A store holding alice and one pre-existing bearer token of hers. -/
def demoStateApi : DbState := ⟨[demoAlice], [], [], [⟨1, "oldkey"⟩], 1000⟩

lemma filter_map_comm {α : Type} (g : α → α) (p : α → Bool) (hp : ∀ a, p (g a) = p a)
    (l : List α) : (l.map g).filter p = (l.filter p).map g := by
  induction l with
  | nil => rfl
  | cons a l ih =>
    simp only [List.map_cons, List.filter_cons, hp a]
    cases h : p a <;> simp [ih]

lemma find_map_comm {α : Type} (g : α → α) (p : α → Bool) (hp : ∀ a, p (g a) = p a)
    (l : List α) : (l.map g).find? p = (l.find? p).map g := by
  induction l with
  | nil => rfl
  | cons a l ih =>
    cases h : p a with
    | true =>
      rw [List.map_cons, List.find?_cons_of_pos _ (by rw [hp a]; exact h),
        List.find?_cons_of_pos _ h]
      rfl
    | false =>
      rw [List.map_cons, List.find?_cons_of_neg _ (by rw [hp a, h]; decide),
        List.find?_cons_of_neg _ (by rw [h]; decide)]
      exact ih

lemma find_of_filter_singleton {α : Type} (p : α → Bool) (l : List α) (a : α)
    (h : l.filter p = [a]) : l.find? p = some a := by
  induction l with
  | nil => simp at h
  | cons b l ih =>
    cases hb : p b with
    | true =>
      rw [List.filter_cons_of_pos hb] at h
      obtain ⟨rfl, -⟩ := List.cons_eq_cons.mp h
      exact List.find?_cons_of_pos _ hb
    | false =>
      rw [List.filter_cons_of_neg (by rw [hb]; decide)] at h
      rw [List.find?_cons_of_neg _ (by rw [hb]; decide)]
      exact ih h

lemma map_eq_singleton {α β : Type} (f : α → β) (l : List α) (b : β) (h : l.map f = [b]) :
    ∃ a, l = [a] ∧ f a = b := by
  cases l with
  | nil => simp at h
  | cons a l =>
    cases l with
    | nil => exact ⟨a, rfl, by simpa using h⟩
    | cons a2 l2 => simp at h

lemma any_congr_fun {α : Type} (l : List α) (p q : α → Bool) (h : ∀ a, p a = q a) :
    l.any p = l.any q := by
  induction l with
  | nil => rfl
  | cons a l ih => simp [List.any_cons, h a, ih]

lemma request_accounts (s : DbState) (email : String) (entropy : Nat) :
    (passwordResetRequestPost s email entropy).1.accounts = s.accounts := by
  unfold passwordResetRequestPost
  by_cases hv : validateResetEmail s email
  · simp only [hv, if_true]
    cases s.accounts.find? (fun a => a.email == email) with
    | none => rfl
    | some u =>
      by_cases hc : ({ s with resetTokens :=
          s.resetTokens.filter (fun t => t.userId != u.id) } : DbState).resetTokens.any
            (fun t => t.token == getRandomString 64 entropy)
      · simp [hc]
      · simp [hc]
  · simp [hv]

lemma request_now (s : DbState) (email : String) (entropy : Nat) :
    (passwordResetRequestPost s email entropy).1.now = s.now := by
  unfold passwordResetRequestPost
  by_cases hv : validateResetEmail s email
  · simp only [hv, if_true]
    cases s.accounts.find? (fun a => a.email == email) with
    | none => rfl
    | some u =>
      by_cases hc : ({ s with resetTokens :=
          s.resetTokens.filter (fun t => t.userId != u.id) } : DbState).resetTokens.any
            (fun t => t.token == getRandomString 64 entropy)
      · simp [hc]
      · simp [hc]
  · simp [hv]

/-- The confirm view either leaves the store untouched (any validation
failure) or, on success, maps the accounts through the password write and the
tokens through the used-flag write. -/
lemma confirm_state_shape (s : DbState) (tok npw npwc : String) :
    (passwordResetConfirmPost s tok npw npwc).1 = s ∨
    ∃ uid, validateToken s tok = .ok uid ∧
      (passwordResetConfirmPost s tok npw npwc).1 =
        markTokenUsed (setPassword s uid npw) tok := by
  unfold passwordResetConfirmPost
  cases hvt : validateToken s tok with
  | error e => left; rfl
  | ok uid =>
    by_cases hne : npw != npwc
    · left; simp [hne]
    · right; exact ⟨uid, rfl, by simp [hne]⟩

lemma setPassword_account_fields (uid : Nat) (pw : String) (a : Account) :
    ((fun a => if a.id == uid then { a with passwordHash := hashPw pw } else a) a).id = a.id
    ∧ ((fun a => if a.id == uid then { a with passwordHash := hashPw pw } else a) a).email =
        a.email
    ∧ ((fun a => if a.id == uid then { a with passwordHash := hashPw pw } else a) a).isActive =
        a.isActive := by
  by_cases h : a.id == uid <;> simp [h]

lemma requestTarget_eq_of_accounts (s1 s2 : DbState) (h : s1.accounts = s2.accounts)
    (email : String) : requestTarget s1 email = requestTarget s2 email := by
  unfold requestTarget validateResetEmail
  rw [h]

lemma requestTarget_map_accounts (s1 s : DbState) (g : Account → Account)
    (hg : ∀ a, (g a).id = a.id ∧ (g a).email = a.email ∧ (g a).isActive = a.isActive)
    (hacc : s1.accounts = s.accounts.map g) (email : String) :
    requestTarget s1 email = requestTarget s email := by
  unfold requestTarget validateResetEmail
  rw [hacc]
  have hpred : ∀ a, ((g a).email == email && (g a).isActive) = (a.email == email && a.isActive) := by
    intro a
    rw [(hg a).2.1, (hg a).2.2]
  have hany : (s.accounts.map g).any (fun a => a.email == email && a.isActive) =
      s.accounts.any (fun a => a.email == email && a.isActive) := by
    rw [List.any_map]
    exact any_congr_fun _ _ _ hpred
  simp only [hany]
  by_cases hv : s.accounts.any (fun a => a.email == email && a.isActive)
  · simp only [hv, if_true]
    rw [find_map_comm g (fun a => a.email == email) (fun a => by simp only [(hg a).2.1]) s.accounts]
    cases s.accounts.find? (fun a => a.email == email) with
    | none => rfl
    | some u => simp [(hg u).1]
  · simp [hv]

/-- The token store after a reset request: untouched on a rejected email or
missing account; otherwise the target account's rows are deleted and, when
the fresh random string does not collide, the one new row is appended. -/
lemma request_resetTokens (s : DbState) (email : String) (entropy : Nat) :
    (passwordResetRequestPost s email entropy).1.resetTokens = s.resetTokens
    ∨ ∃ u, validateResetEmail s email = true ∧
        s.accounts.find? (fun a => a.email == email) = some u ∧
      ((passwordResetRequestPost s email entropy).1.resetTokens =
          s.resetTokens.filter (fun t => t.userId != u.id)
        ∨ ((s.resetTokens.filter (fun t => t.userId != u.id)).any
              (fun t => t.token == getRandomString 64 entropy) = false
          ∧ (passwordResetRequestPost s email entropy).1.resetTokens =
              s.resetTokens.filter (fun t => t.userId != u.id) ++
                [⟨u.id, getRandomString 64 entropy, false, s.now + 24 * 3600, s.now⟩])) := by
  unfold passwordResetRequestPost
  by_cases hv : validateResetEmail s email
  · simp only [hv, if_true]
    cases hf : s.accounts.find? (fun a => a.email == email) with
    | none => left; rfl
    | some u =>
      right
      refine ⟨u, by simp [hv], rfl, ?_⟩
      by_cases hc : (s.resetTokens.filter (fun t => t.userId != u.id)).any
          (fun t => t.token == getRandomString 64 entropy)
      · left; simp [hc]
      · right
        refine ⟨by simpa using hc, by simp [hc]⟩
  · left; simp [hv]

lemma atMostOne_request (s : DbState) (email : String) (entropy : Nat)
    (h : atMostOneTokenPerAccount s) :
    atMostOneTokenPerAccount (passwordResetRequestPost s email entropy).1 := by
  rcases request_resetTokens s email entropy with heq | ⟨u, -, -, heq | ⟨-, heq⟩⟩
  · intro uid; unfold tokensOf; rw [heq]; exact h uid
  · intro uid
    unfold tokensOf
    rw [heq]
    calc ((s.resetTokens.filter (fun t => t.userId != u.id)).filter
            (fun t => t.userId == uid)).length
        ≤ (s.resetTokens.filter (fun t => t.userId == uid)).length :=
          ((s.resetTokens.filter_sublist (p := fun t => t.userId != u.id)).filter _).length_le
      _ ≤ 1 := h uid
  · intro uid
    unfold tokensOf
    rw [heq, List.filter_append]
    by_cases huid : uid = u.id
    · subst huid
      have hnil : (s.resetTokens.filter (fun t => t.userId != u.id)).filter
          (fun t => t.userId == u.id) = [] := by
        rw [List.filter_eq_nil_iff]
        intro t ht
        have h2 := (List.mem_filter.mp ht).2
        simp only [bne_iff_ne, ne_eq] at h2
        simp only [beq_iff_eq]
        exact h2
      rw [hnil]
      simp
    · have hnew : (([⟨u.id, getRandomString 64 entropy, false, s.now + 24 * 3600, s.now⟩] :
          List ResetToken).filter (fun t => t.userId == uid)) = [] := by
        have : ((⟨u.id, getRandomString 64 entropy, false, s.now + 24 * 3600, s.now⟩ :
            ResetToken).userId == uid) = false := by
          simp only [beq_eq_false_iff_ne, ne_eq]
          exact fun hh => huid hh.symm
        simp [List.filter, this]
      rw [hnew, List.append_nil]
      calc ((s.resetTokens.filter (fun t => t.userId != u.id)).filter
              (fun t => t.userId == uid)).length
          ≤ (s.resetTokens.filter (fun t => t.userId == uid)).length :=
            ((s.resetTokens.filter_sublist (p := fun t => t.userId != u.id)).filter _).length_le
        _ ≤ 1 := h uid

lemma atMostOne_applyOp (s : DbState) (h : atMostOneTokenPerAccount s) (op : TokenOp) :
    atMostOneTokenPerAccount (applyOp s op) := by
  cases op with
  | tick dt => exact h
  | request email entropy => exact atMostOne_request s email entropy h
  | confirm tok npw npwc =>
    show atMostOneTokenPerAccount (passwordResetConfirmPost s tok npw npwc).1
    rcases confirm_state_shape s tok npw npwc with heq | ⟨uid, -, heq⟩
    · rw [heq]; exact h
    · rw [heq]
      intro uid2
      unfold tokensOf
      have htok : (markTokenUsed (setPassword s uid npw) tok).resetTokens =
          s.resetTokens.map
            (fun t => if t.token == tok then { t with isUsed := true } else t) := rfl
      rw [htok, filter_map_comm _ _ (fun t => by by_cases hc : t.token == tok <;> simp [hc]),
        List.length_map]
      exact h uid2

lemma atMostOne_applyOps (ops : List TokenOp) : ∀ s : DbState, atMostOneTokenPerAccount s →
    atMostOneTokenPerAccount (applyOps s ops) := by
  induction ops with
  | nil => intro s h; exact h
  | cons op ops ih => intro s h; exact ih _ (atMostOne_applyOp s h op)

lemma active_length_le (s : DbState) (uid : Nat) :
    (activeTokensOf s uid).length ≤ (tokensOf s uid).length := by
  unfold activeTokensOf tokensOf
  have h1 : s.resetTokens.filter (fun t => t.userId == uid && t.is_valid s.now) =
      (s.resetTokens.filter (fun t => t.userId == uid)).filter
        (fun t => t.is_valid s.now) := by
    rw [List.filter_filter]
    apply List.filter_congr
    intro t ht
    exact Bool.and_comm _ _
  rw [h1]
  exact List.length_filter_le _ _

lemma filter_and_singleton {α : Type} (p q : α → Bool) (l : List α) (t0 : α)
    (hfil : l.filter p = [t0]) (hq : q t0 = true) :
    l.filter (fun a => p a && q a) = [t0] := by
  induction l with
  | nil => simp at hfil
  | cons a l ih =>
    cases hp : p a with
    | true =>
      rw [List.filter_cons_of_pos hp] at hfil
      obtain ⟨rfl, hrest⟩ := List.cons_eq_cons.mp hfil
      rw [List.filter_cons_of_pos (by rw [hp, hq]; rfl)]
      have hnil : l.filter (fun a => p a && q a) = [] := by
        rw [List.filter_eq_nil_iff]
        intro x hx
        have hnp := (List.filter_eq_nil_iff.mp hrest) x hx
        simp only [Bool.and_eq_true, not_and]
        intro hpx
        exact absurd hpx hnp
      rw [hnil]
    | false =>
      rw [List.filter_cons_of_neg (by simp [hp])] at hfil
      rw [List.filter_cons_of_neg (by simp [hp])]
      exact ih hfil

lemma requestTarget_of_valid (s : DbState) (email : String) (u : Account)
    (hv : validateResetEmail s email = true)
    (hf : s.accounts.find? (fun a => a.email == email) = some u) :
    requestTarget s email = some u.id := by
  unfold requestTarget
  simp [hv, hf]

lemma consumed_unpack (s : DbState) (tokStr : String) (ownerId : Nat)
    (hP : consumedRecordState s tokStr ownerId) :
    ∃ t0, s.resetTokens.filter (fun t => t.token == tokStr) = [t0] ∧
      t0.isUsed = true ∧ t0.userId = ownerId ∧ (t0.token == tokStr) = true := by
  obtain ⟨t0, hfil, hpair⟩ := map_eq_singleton _ _ _ hP
  have hmem : t0 ∈ s.resetTokens.filter (fun t => t.token == tokStr) := by
    rw [hfil]; exact List.mem_singleton_self _
  have htok := (List.mem_filter.mp hmem).2
  have h1 : t0.isUsed = true := congrArg Prod.fst hpair
  have h2 : t0.userId = ownerId := congrArg Prod.snd hpair
  exact ⟨t0, hfil, h1, h2, htok⟩

lemma consumed_validate (s : DbState) (tokStr : String) (ownerId : Nat)
    (hP : consumedRecordState s tokStr ownerId) :
    validateToken s tokStr = .error .tokenInvalid := by
  obtain ⟨t0, hfil, hused, -, -⟩ := consumed_unpack s tokStr ownerId hP
  have hfind := find_of_filter_singleton _ _ _ hfil
  unfold validateToken
  rw [hfind]
  simp [ResetToken.is_valid, hused]

/-- A reset-confirm call that reports success necessarily went through a
successful token validation and performed the two writes. -/
lemma confirm_success_shape (s : DbState) (tok npw npwc : String)
    (hok : (passwordResetConfirmPost s tok npw npwc).2 = .ok ()) :
    ∃ uid, validateToken s tok = .ok uid ∧
      (passwordResetConfirmPost s tok npw npwc).1 =
        markTokenUsed (setPassword s uid npw) tok := by
  cases hvt : validateToken s tok with
  | error e => simp [passwordResetConfirmPost, hvt] at hok
  | ok uid =>
    by_cases hne : (npw != npwc) = true
    · simp [passwordResetConfirmPost, hvt, hne] at hok
    · exact ⟨uid, rfl, by simp [passwordResetConfirmPost, hvt, hne]⟩

lemma consumed_after_confirm (s : DbState) (tokStr npw npwc : String) (t0 : ResetToken)
    (hfil : s.resetTokens.filter (fun t => t.token == tokStr) = [t0])
    (hok : (passwordResetConfirmPost s tokStr npw npwc).2 = .ok ()) :
    consumedRecordState (passwordResetConfirmPost s tokStr npw npwc).1 tokStr t0.userId := by
  obtain ⟨uid, -, heq⟩ := confirm_success_shape s tokStr npw npwc hok
  have hmem : t0 ∈ s.resetTokens.filter (fun t => t.token == tokStr) := by
    rw [hfil]; exact List.mem_singleton_self _
  have htokeq : (t0.token == tokStr) = true := (List.mem_filter.mp hmem).2
  unfold consumedRecordState
  rw [heq]
  have htoks : (markTokenUsed (setPassword s uid npw) tokStr).resetTokens =
      s.resetTokens.map
        (fun t => if t.token == tokStr then { t with isUsed := true } else t) := rfl
  rw [htoks, filter_map_comm _ _ (fun t => by by_cases hc : t.token == tokStr <;> simp [hc]),
    hfil]
  have heqq : t0.token = tokStr := by simpa using htokeq
  simp [heqq]

lemma consumed_pres_op (tokStr : String) (ownerId : Nat) (s : DbState)
    (hP : consumedRecordState s tokStr ownerId) (op : TokenOp)
    (hop : ∀ email entropy, op = TokenOp.request email entropy →
      requestTarget s email ≠ some ownerId) :
    consumedRecordState (applyOp s op) tokStr ownerId := by
  obtain ⟨t0, hfil, hused, howner, htok⟩ := consumed_unpack s tokStr ownerId hP
  cases op with
  | tick dt => exact hP
  | confirm tok2 npw npwc =>
    show consumedRecordState (passwordResetConfirmPost s tok2 npw npwc).1 tokStr ownerId
    rcases confirm_state_shape s tok2 npw npwc with heq | ⟨uid, -, heq⟩
    · rw [heq]; exact hP
    · rw [heq]
      unfold consumedRecordState
      have htoks : (markTokenUsed (setPassword s uid npw) tok2).resetTokens =
          s.resetTokens.map
            (fun t => if t.token == tok2 then { t with isUsed := true } else t) := rfl
      rw [htoks, filter_map_comm _ _ (fun t => by by_cases hc : t.token == tok2 <;> simp [hc]),
        hfil]
      by_cases hc : t0.token = tok2
      · simp [hc, howner]
      · simp [hc, hused, howner]
  | request email entropy =>
    show consumedRecordState (passwordResetRequestPost s email entropy).1 tokStr ownerId
    rcases request_resetTokens s email entropy with heq | ⟨u, hv, hf, heq | ⟨hcol, heq⟩⟩
    · unfold consumedRecordState; rw [heq]; exact hP
    all_goals {
      have hne : u.id ≠ ownerId := by
        intro hcontra
        exact hop email entropy rfl (by rw [requestTarget_of_valid s email u hv hf, hcontra])
      have hq : (t0.userId != u.id) = true := by
        simp only [bne_iff_ne, ne_eq, howner]
        exact fun hh => hne hh.symm
      have hfil2 : (s.resetTokens.filter (fun t => t.userId != u.id)).filter
          (fun t => t.token == tokStr) = [t0] := by
        rw [List.filter_filter]
        exact filter_and_singleton _ _ _ _ hfil hq
      unfold consumedRecordState
      rw [heq]
      first
      | (rw [hfil2, List.map_cons]; simp [hused, howner])
      | (rw [List.filter_append, hfil2]
         have hnomatch : ((getRandomString 64 entropy == tokStr) : Bool) = false := by
           cases hrs : ((getRandomString 64 entropy == tokStr) : Bool) with
           | false => rfl
           | true =>
             exfalso
             have hrs2 : getRandomString 64 entropy = tokStr := by simpa using hrs
             have ht0mem : t0 ∈ s.resetTokens.filter (fun t => t.userId != u.id) := by
               have ht0l : t0 ∈ s.resetTokens := by
                 have : t0 ∈ s.resetTokens.filter (fun t => t.token == tokStr) := by
                   rw [hfil]; exact List.mem_singleton_self _
                 exact List.mem_of_mem_filter this
               exact List.mem_filter.mpr ⟨ht0l, hq⟩
             have hany : (s.resetTokens.filter (fun t => t.userId != u.id)).any
                 (fun t => t.token == getRandomString 64 entropy) = true := by
               rw [List.any_eq_true]
               exact ⟨t0, ht0mem, by rw [hrs2]; exact htok⟩
             rw [hcol] at hany
             exact absurd hany (by decide)
         have hsingle : ([(⟨u.id, getRandomString 64 entropy, false,
             s.now + 24 * 3600, s.now⟩ : ResetToken)].filter
               (fun t => t.token == tokStr)) = [] := by
           simp [List.filter, hnomatch]
         rw [hsingle, List.append_nil, List.map_cons]
         simp [hused, howner])
    }

lemma requestTarget_applyOp (s : DbState) (op : TokenOp) (email : String) :
    requestTarget (applyOp s op) email = requestTarget s email := by
  cases op with
  | tick dt => rfl
  | request e n =>
    exact requestTarget_eq_of_accounts _ _ (request_accounts s e n) email
  | confirm tok npw npwc =>
    show requestTarget (passwordResetConfirmPost s tok npw npwc).1 email = requestTarget s email
    rcases confirm_state_shape s tok npw npwc with h | ⟨uid, -, h⟩
    · rw [h]
    · rw [h]
      exact requestTarget_map_accounts _ s _ (setPassword_account_fields uid npw) rfl email

lemma consumed_pres_ops (tokStr : String) (ownerId : Nat) (ops : List TokenOp) :
    ∀ s : DbState, consumedRecordState s tokStr ownerId →
    (∀ email entropy, TokenOp.request email entropy ∈ ops →
      requestTarget s email ≠ some ownerId) →
    consumedRecordState (applyOps s ops) tokStr ownerId := by
  induction ops with
  | nil => intro s hP _; exact hP
  | cons op ops ih =>
    intro s hP hops
    apply ih
    · exact consumed_pres_op tokStr ownerId s hP op
        (fun e n heq => hops e n (by rw [heq]; exact List.mem_cons_self _ _))
    · intro e n hmem
      rw [requestTarget_applyOp]
      exact hops e n (List.mem_cons_of_mem _ hmem)

lemma getRandomString_length (n entropy : Nat) : (getRandomString n entropy).length = n := by
  have h : (getRandomString n entropy).length =
      ((List.range n).map (fun i => alphanumChars.getD ((entropy / 62 ^ i) % 62) 'a')).length :=
    rfl
  rw [h, List.length_map, List.length_range]

lemma alphanumChars_all : ∀ c ∈ alphanumChars, c.isAlphanum = true := by decide

lemma getRandomString_alphanum (n entropy : Nat) :
    ∀ c ∈ (getRandomString n entropy).toList, c.isAlphanum = true := by
  intro c hc
  have h : (getRandomString n entropy).toList =
      (List.range n).map (fun i => alphanumChars.getD ((entropy / 62 ^ i) % 62) 'a') := rfl
  rw [h] at hc
  obtain ⟨i, -, rfl⟩ := List.mem_map.mp hc
  have hlen : alphanumChars.length = 62 := by decide
  have hidx : (entropy / 62 ^ i) % 62 < alphanumChars.length := by
    rw [hlen]
    exact Nat.mod_lt _ (by decide)
  have hmem : alphanumChars.getD ((entropy / 62 ^ i) % 62) 'a' ∈ alphanumChars := by
    rw [List.getD_eq_getElem?_getD, List.getElem?_eq_getElem hidx, Option.getD_some]
    exact List.getElem_mem hidx
  exact alphanumChars_all _ hmem

lemma logLoginAttempt_eq (s : DbState) (req : HttpRequest) (username : String)
    (success : Bool) : logLoginAttempt s req username success = s := by
  unfold logLoginAttempt
  rw [if_neg (by decide)]

lemma filter_idem {α : Type} (p : α → Bool) (l : List α) :
    (l.filter p).filter p = l.filter p := by
  rw [List.filter_filter]
  apply List.filter_congr
  intro a ha
  exact Bool.and_self _

/-- The full state change of a reset request whose email passes validation
and whose fresh token string does not collide with any stored one. -/
lemma request_success_state (s : DbState) (email : String) (entropy : Nat) (u : Account)
    (hv : validateResetEmail s email = true)
    (hf : s.accounts.find? (fun a => a.email == email) = some u)
    (hfresh : ∀ t ∈ s.resetTokens, t.token ≠ getRandomString 64 entropy) :
    (passwordResetRequestPost s email entropy).1 =
      { s with resetTokens := s.resetTokens.filter (fun t => t.userId != u.id) ++
          [⟨u.id, getRandomString 64 entropy, false, s.now + 24 * 3600, s.now⟩] } := by
  have hcol : (s.resetTokens.filter (fun t => t.userId != u.id)).any
      (fun t => t.token == getRandomString 64 entropy) = false := by
    rw [List.any_eq_false]
    intro t ht
    simpa using hfresh t (List.mem_of_mem_filter ht)
  unfold passwordResetRequestPost
  simp [hv, hf, hcol]

/-- C1: the claim states that every login call persists exactly one
LoginAttempt record whose success flag equals the outcome.  The code never
persists any: inside `_log_login_attempt` the attribute lookup
`self._get_client_ip` raises `AttributeError` (the helper lives at module
level, not on `LoginView`), the `except Exception` handler swallows it, and
the audit log is left unchanged by every login call, successful or failed.
The failure path also leaves every account, in particular its stored
password hash, unchanged. -/
theorem login_never_persists_audit_record (s : DbState) (req : HttpRequest)
    (tokenKey : String) :
    (loginPost s req tokenKey).1.loginAttempts = s.loginAttempts
    ∧ (loginPost s req tokenKey).1.accounts = s.accounts := by
  unfold loginPost
  cases loginValidate s req.username req.password with
  | ok u =>
    by_cases ht : s.apiTokens.any (fun t => t.userId == u.id) <;>
      simp [ht, logLoginAttempt_eq]
  | error e => simp [logLoginAttempt_eq]

/-- C2: the claim states that consume is atomic (both-or-neither).  The code
performs `user.save()` and `token_obj.save()` as two separate writes with no
transaction; evaluated on the concrete store (alice with a freshly issued
valid token), the run interrupted between the two writes has already changed
the stored password hash while the token is still fully consumable — a
second, complete consume call with a different password still succeeds. -/
theorem confirm_interrupted_leaves_consumable_token :
    ((passwordResetConfirmAfterFirstWrite
        (passwordResetRequestPost demoState "alice@example.com" 0).1
        (getRandomString 64 0) "NewPass1" "NewPass1").accounts.map
          (fun a => a.passwordHash)) = [hashPw "NewPass1"]
    ∧ validateToken
        (passwordResetConfirmAfterFirstWrite
          (passwordResetRequestPost demoState "alice@example.com" 0).1
          (getRandomString 64 0) "NewPass1" "NewPass1")
        (getRandomString 64 0) = .ok 1
    ∧ (passwordResetConfirmPost
          (passwordResetConfirmAfterFirstWrite
            (passwordResetRequestPost demoState "alice@example.com" 0).1
            (getRandomString 64 0) "NewPass1" "NewPass1")
          (getRandomString 64 0) "Another1" "Another1").2 = .ok () :=
  ⟨rfl, rfl, rfl⟩

/-- C3 counterexample: the claim states the user-facing response of a reset
request is uniform across registered and unregistered valid-format emails.
On the concrete store holding only the active account alice, the response
for alice's email differs from the response for an unknown email (success
acknowledgement versus a validation error naming the absence of an active
user). -/
theorem reset_request_response_not_uniform :
    (passwordResetRequestPost demoState "alice@example.com" 0).2 ≠
      (passwordResetRequestPost demoState "bob@example.com" 0).2 := by decide

/-- C3 (amended): the response of a reset request reveals whether the email
belongs to an active account: an email failing `validate_email` is answered
with the error "No active user found with this email address.", while an
email of an active account (absent a random-token collision) is answered
with the success acknowledgement. -/
theorem reset_request_reveals_active_email (s : DbState) (email : String) (entropy : Nat) :
    (validateResetEmail s email = false →
      (passwordResetRequestPost s email entropy).2 =
        ⟨false, "Password reset request failed",
          ["No active user found with this email address."]⟩)
    ∧ (validateResetEmail s email = true →
      (∀ t ∈ s.resetTokens, t.token ≠ getRandomString 64 entropy) →
      (passwordResetRequestPost s email entropy).2 =
        ⟨true, "Password reset email sent successfully", []⟩) := by
  constructor
  · intro hv
    unfold passwordResetRequestPost
    simp [hv]
  · intro hv hfresh
    have hex : ∃ u, s.accounts.find? (fun a => a.email == email) = some u := by
      have h1 : (s.accounts.find? (fun a => a.email == email)).isSome := by
        rw [List.find?_isSome]
        obtain ⟨a, ha, hpa⟩ := List.any_eq_true.mp hv
        exact ⟨a, ha, by simp_all⟩
      exact Option.isSome_iff_exists.mp h1
    obtain ⟨u, hf⟩ := hex
    rw [show (passwordResetRequestPost s email entropy) =
        ((passwordResetRequestPost s email entropy).1,
          (passwordResetRequestPost s email entropy).2) from rfl]
    have hcol : (s.resetTokens.filter (fun t => t.userId != u.id)).any
        (fun t => t.token == getRandomString 64 entropy) = false := by
      rw [List.any_eq_false]
      intro t ht
      simpa using hfresh t (List.mem_of_mem_filter ht)
    unfold passwordResetRequestPost
    simp [hv, hf, hcol]

/-- C5: `LoginSerializer.validate`, given non-empty credential fields, fails
with the invalid-credentials error exactly when no stored account matches
the username with a matching password hash, fails with the account-disabled
error when `authenticate` returns a user whose active flag is false, and
otherwise succeeds returning that user. -/
theorem login_validate_distinguishes_failures (s : DbState) (username password : String)
    (hu : username ≠ "") (hp : password ≠ "") :
    ((∀ a ∈ s.accounts,
        ¬(a.username = username ∧ checkPassword password a.passwordHash = true)) →
      loginValidate s username password = .error .invalidCredentials)
    ∧ (∀ u, authenticateUser s username password = some u → u.isActive = false →
      loginValidate s username password = .error .accountDisabled)
    ∧ (∀ u, authenticateUser s username password = some u → u.isActive = true →
      loginValidate s username password = .ok u) := by
  refine ⟨?_, ?_, ?_⟩
  · intro h
    have hauth : authenticateUser s username password = none := by
      unfold authenticateUser
      rw [List.find?_eq_none]
      intro a ha
      simp only [Bool.and_eq_true, beq_iff_eq, not_and]
      intro h1 h2
      exact h a ha ⟨h1, h2⟩
    unfold loginValidate
    simp [hu, hp, hauth]
  · intro u hauth hact
    unfold loginValidate
    simp [hu, hp, hauth, hact]
  · intro u hauth hact
    unfold loginValidate
    simp [hu, hp, hauth, hact]

lemma is_valid_iff (t : ResetToken) (now : Nat) :
    t.is_valid now = true ↔ (t.isUsed = false ∧ ¬ t.expiresAt < now) := by
  unfold ResetToken.is_valid ResetToken.is_expired
  cases h : t.isUsed <;> simp [h]

lemma validateToken_of_find (s : DbState) (tok : String) (t : ResetToken)
    (hf : s.resetTokens.find? (fun t2 => t2.token == tok) = some t) :
    validateToken s tok =
      if t.is_valid s.now then .ok t.userId else .error .tokenInvalid := by
  unfold validateToken
  rw [hf]

lemma validateToken_eq_notFound (s : DbState) (tok : String)
    (h : s.resetTokens.find? (fun t2 => t2.token == tok) = none) :
    validateToken s tok = .error .tokenNotFound := by
  unfold validateToken
  rw [h]

/-- C6: `validate` fails with the not-found error exactly when no stored row
matches the token string; with a matching row it fails with the invalid
error exactly when the row is used or the current time is strictly past its
expiry; an unused, unexpired matching row yields the owning account; and at
the boundary, validation one second before expiry succeeds while one second
after expiry fails with the invalid error. -/
theorem validate_token_classification (s : DbState) (tok : String) :
    (validateToken s tok = .error .tokenNotFound ↔
      s.resetTokens.find? (fun t => t.token == tok) = none)
    ∧ (∀ t, s.resetTokens.find? (fun t2 => t2.token == tok) = some t →
      ((validateToken s tok = .error .tokenInvalid) ↔
        (t.isUsed = true ∨ t.expiresAt < s.now))
      ∧ (t.isUsed = false → ¬ t.expiresAt < s.now → validateToken s tok = .ok t.userId))
    ∧ (∀ t, s.resetTokens.find? (fun t2 => t2.token == tok) = some t →
      t.isUsed = false → 1 ≤ t.expiresAt →
      validateToken { s with now := t.expiresAt - 1 } tok = .ok t.userId
      ∧ validateToken { s with now := t.expiresAt + 1 } tok = .error .tokenInvalid) := by
  refine ⟨?_, ?_, ?_⟩
  · cases hf : s.resetTokens.find? (fun t => t.token == tok) with
    | none => simp [validateToken, hf]
    | some t =>
      rw [validateToken_of_find s tok t hf]
      by_cases hvl : t.is_valid s.now <;> simp [hvl, hf]
  · intro t hf
    rw [validateToken_of_find s tok t hf]
    constructor
    · by_cases hvl : t.is_valid s.now = true
      · rw [if_pos hvl]
        obtain ⟨h1, h2⟩ := (is_valid_iff t s.now).mp hvl
        simp [h1, h2]
      · rw [if_neg hvl]
        have hnv : ¬(t.isUsed = false ∧ ¬ t.expiresAt < s.now) :=
          fun hh => hvl ((is_valid_iff t s.now).mpr hh)
        constructor
        · intro _
          by_cases hu : t.isUsed = true
          · exact Or.inl hu
          · right
            by_contra hlt
            exact hnv ⟨by simpa using hu, hlt⟩
        · intro _
          rfl
    · intro h1 h2
      rw [if_pos ((is_valid_iff t s.now).mpr ⟨h1, h2⟩)]
  · intro t hf hused hpos
    have hb1 := validateToken_of_find { s with now := t.expiresAt - 1 } tok t hf
    have hb2 := validateToken_of_find { s with now := t.expiresAt + 1 } tok t hf
    constructor
    · rw [hb1, if_pos ((is_valid_iff t (t.expiresAt - 1)).mpr ⟨hused, by omega⟩)]
    · rw [hb2,
        if_neg (fun hv => absurd ((is_valid_iff t (t.expiresAt + 1)).mp hv).2 (by omega))]

/-- C9: a reset request for an email owned by no active account is rejected
with the serializer error and the state is returned untouched (no token
issued) — an email of a deactivated account is rejected exactly as a
nonexistent one. -/
theorem reset_request_rejects_nonactive_email (s : DbState) (email : String) (entropy : Nat)
    (h : ∀ a ∈ s.accounts, a.email = email → a.isActive = false) :
    passwordResetRequestPost s email entropy =
      (s, ⟨false, "Password reset request failed",
            ["No active user found with this email address."]⟩) := by
  have hv : validateResetEmail s email = false := by
    unfold validateResetEmail
    rw [List.any_eq_false]
    intro a ha
    simp only [Bool.and_eq_true, beq_iff_eq, not_and]
    intro h1
    simp [h a ha h1]
  unfold passwordResetRequestPost
  simp [hv]

/-- C10: a successful password change deletes every pre-existing bearer
token of the user, leaves exactly one fresh token row for the user, and
returns the fresh key in the response, so no previous session credential of
the user survives the call. -/
theorem password_change_rotates_bearer_tokens (s : DbState) (u : Account)
    (oldPw newPw freshKey : String)
    (hold : checkPassword oldPw u.passwordHash = true)
    (hfresh : ∀ t ∈ s.apiTokens, t.key ≠ freshKey) :
    (passwordChangePost s u oldPw newPw newPw freshKey).2 = .ok freshKey
    ∧ (passwordChangePost s u oldPw newPw newPw freshKey).1.apiTokens.filter
        (fun t => t.userId == u.id) = [⟨u.id, freshKey⟩]
    ∧ ∀ t ∈ s.apiTokens, t.userId = u.id →
        t ∉ (passwordChangePost s u oldPw newPw newPw freshKey).1.apiTokens := by
  have htoks : (passwordChangePost s u oldPw newPw newPw freshKey).1.apiTokens =
      s.apiTokens.filter (fun t => t.userId != u.id) ++ [⟨u.id, freshKey⟩] := by
    unfold passwordChangePost
    simp [hold, setPassword]
  have hres : (passwordChangePost s u oldPw newPw newPw freshKey).2 = .ok freshKey := by
    unfold passwordChangePost
    simp [hold]
  refine ⟨hres, ?_, ?_⟩
  · rw [htoks, List.filter_append]
    have hnil : (s.apiTokens.filter (fun t => t.userId != u.id)).filter
        (fun t => t.userId == u.id) = [] := by
      rw [List.filter_eq_nil_iff]
      intro t ht
      have h2 := (List.mem_filter.mp ht).2
      simp only [bne_iff_ne, ne_eq] at h2
      simp only [beq_iff_eq]
      exact h2
    rw [hnil, List.nil_append]
    simp
  · intro t ht huid hmem
    rw [htoks] at hmem
    rcases List.mem_append.mp hmem with hmem | hmem
    · have h2 := (List.mem_filter.mp hmem).2
      simp only [bne_iff_ne, ne_eq] at h2
      exact h2 huid
    · have h2 : t = (⟨u.id, freshKey⟩ : ApiToken) := by simpa using hmem
      exact hfresh t ht (by rw [h2])

/-- C4 counterexample: the claim demands that after a second issue the first
token fail validation with the token-invalid error and no other.  On the
concrete store, after two issues for alice the first token string fails
validation with the not-found error (its row was deleted, not merely
invalidated), which is a different error, while the second token validates
to alice. -/
theorem second_issue_token_error_counterexample :
    validateToken (passwordResetRequestPost
        (passwordResetRequestPost demoState "alice@example.com" 0).1
        "alice@example.com" 1).1
      (getRandomString 64 0) = .error .tokenNotFound
    ∧ TokenError.tokenNotFound ≠ TokenError.tokenInvalid
    ∧ validateToken (passwordResetRequestPost
        (passwordResetRequestPost demoState "alice@example.com" 0).1
        "alice@example.com" 1).1
      (getRandomString 64 1) = .ok 1 :=
  ⟨rfl, by decide, rfl⟩

/-- C4 (amended): after a second issue for the same account, validation of
the first token string fails with the not-found error — the second issue
deletes the first row outright — while the second token validates
successfully to the owning account, its expiry not yet elapsed. -/
theorem second_issue_invalidates_first_token (s : DbState) (email : String)
    (e1 e2 : Nat) (u : Account)
    (hv : validateResetEmail s email = true)
    (hf : s.accounts.find? (fun a => a.email == email) = some u)
    (hne : getRandomString 64 e1 ≠ getRandomString 64 e2)
    (hfresh1 : ∀ t ∈ s.resetTokens, t.token ≠ getRandomString 64 e1)
    (hfresh2 : ∀ t ∈ s.resetTokens, t.token ≠ getRandomString 64 e2) :
    validateToken (passwordResetRequestPost
        (passwordResetRequestPost s email e1).1 email e2).1
      (getRandomString 64 e1) = .error .tokenNotFound
    ∧ validateToken (passwordResetRequestPost
        (passwordResetRequestPost s email e1).1 email e2).1
      (getRandomString 64 e2) = .ok u.id := by
  have h1 := request_success_state s email e1 u hv hf hfresh1
  set A : List ResetToken := s.resetTokens.filter (fun t => t.userId != u.id) with hAdef
  set T1 : ResetToken := ⟨u.id, getRandomString 64 e1, false, s.now + 24 * 3600, s.now⟩
    with hT1def
  set s1 : DbState := { s with resetTokens := A ++ [T1] } with hs1def
  rw [h1]
  have hs1toks : s1.resetTokens = A ++ [T1] := by rw [hs1def]
  have hv1 : validateResetEmail s1 email = true := hv
  have hf1 : s1.accounts.find? (fun a => a.email == email) = some u := hf
  have hfresh2b : ∀ t ∈ s1.resetTokens, t.token ≠ getRandomString 64 e2 := by
    rw [hs1toks]
    intro t ht
    rcases List.mem_append.mp ht with hta | htb
    · rw [hAdef] at hta
      exact hfresh2 t (List.mem_of_mem_filter hta)
    · have heq : t = T1 := by simpa using htb
      rw [heq, hT1def]
      exact hne
  have h2 := request_success_state s1 email e2 u hv1 hf1 hfresh2b
  set T2 : ResetToken := ⟨u.id, getRandomString 64 e2, false, s1.now + 24 * 3600, s1.now⟩
    with hT2def
  have hfindA1 : A.find? (fun t => t.token == getRandomString 64 e1) = none := by
    rw [hAdef, List.find?_eq_none]
    intro t ht
    simpa using hfresh1 t (List.mem_of_mem_filter ht)
  have hfindA2 : A.find? (fun t => t.token == getRandomString 64 e2) = none := by
    rw [hAdef, List.find?_eq_none]
    intro t ht
    simpa using hfresh2 t (List.mem_of_mem_filter ht)
  have hFtoks : (passwordResetRequestPost s1 email e2).1.resetTokens = A ++ [T2] := by
    rw [h2]
    show s1.resetTokens.filter (fun t => t.userId != u.id) ++ [T2] = A ++ [T2]
    rw [hs1toks, List.filter_append]
    have hsingle : [T1].filter (fun t => t.userId != u.id) = [] := by
      rw [hT1def]
      simp [List.filter]
    rw [hsingle, List.append_nil, hAdef, filter_idem]
  have hnow : (passwordResetRequestPost s1 email e2).1.now = s1.now := by rw [h2]
  constructor
  · have hbeq : (T2.token == getRandomString 64 e1) = false := by
      rw [hT2def]
      simpa using fun hh => hne hh.symm
    have hfindF1 : (passwordResetRequestPost s1 email e2).1.resetTokens.find?
        (fun t => t.token == getRandomString 64 e1) = none := by
      rw [hFtoks, List.find?_append, hfindA1, List.find?_cons_of_neg _ (by simp [hbeq]),
        List.find?_nil]
      rfl
    exact validateToken_eq_notFound _ _ hfindF1
  · have hbeq2 : (T2.token == getRandomString 64 e2) = true := by
      rw [hT2def]
      simp
    have hfindF2 : (passwordResetRequestPost s1 email e2).1.resetTokens.find?
        (fun t => t.token == getRandomString 64 e2) = some T2 := by
      rw [hFtoks, List.find?_append, hfindA2]
      simp [List.find?_cons, hbeq2]
    rw [validateToken_of_find _ _ _ hfindF2, hnow,
      if_pos ((is_valid_iff T2 s1.now).mpr
        ⟨by rw [hT2def], by rw [hT2def]; simp⟩)]

/-- C7: from any store satisfying the at-most-one-token-per-account
invariant, every sequence of lifecycle operations preserves it, so each
account owns at most one active (unused, unexpired) token in every reachable
state; and a successful issue deletes all prior tokens of the target account
and persists exactly one new row for it, whose token string has 64 (hence at
least 64) alphanumeric characters and whose expiry equals the issuance time
plus 24 hours. -/
theorem token_lifecycle_invariant (s0 : DbState) (h0 : atMostOneTokenPerAccount s0)
    (ops : List TokenOp) (uid : Nat) (s : DbState) (email : String) (entropy : Nat)
    (u : Account)
    (hv : validateResetEmail s email = true)
    (hf : s.accounts.find? (fun a => a.email == email) = some u)
    (hfresh : ∀ t ∈ s.resetTokens, t.token ≠ getRandomString 64 entropy) :
    (activeTokensOf (applyOps s0 ops) uid).length ≤ 1
    ∧ tokensOf (passwordResetRequestPost s email entropy).1 u.id =
        [⟨u.id, getRandomString 64 entropy, false, s.now + 24 * 3600, s.now⟩]
    ∧ 64 ≤ (getRandomString 64 entropy).length
    ∧ (∀ c ∈ (getRandomString 64 entropy).toList, c.isAlphanum = true) := by
  refine ⟨?_, ?_, ?_, ?_⟩
  · exact le_trans (active_length_le _ _) (atMostOne_applyOps ops s0 h0 uid)
  · rw [request_success_state s email entropy u hv hf hfresh]
    unfold tokensOf
    rw [show ({ s with resetTokens := s.resetTokens.filter (fun t => t.userId != u.id) ++
        [⟨u.id, getRandomString 64 entropy, false, s.now + 24 * 3600, s.now⟩] } :
        DbState).resetTokens = s.resetTokens.filter (fun t => t.userId != u.id) ++
        [⟨u.id, getRandomString 64 entropy, false, s.now + 24 * 3600, s.now⟩] from rfl]
    rw [List.filter_append]
    have hnil : (s.resetTokens.filter (fun t => t.userId != u.id)).filter
        (fun t => t.userId == u.id) = [] := by
      rw [List.filter_eq_nil_iff]
      intro t ht
      have h2 := (List.mem_filter.mp ht).2
      simp only [bne_iff_ne, ne_eq] at h2
      simp only [beq_iff_eq]
      exact h2
    rw [hnil, List.nil_append]
    simp
  · rw [getRandomString_length]
  · exact getRandomString_alphanum 64 entropy

/-- C8 counterexample: the claim demands that every later validate of a
consumed token string fail with the token-invalid error.  On the concrete
store, alice's token is consumed successfully, then a later issue for alice
deletes the consumed row, and validating the consumed string then fails with
the not-found error, a different error. -/
theorem consumed_token_later_not_found_counterexample :
    (passwordResetConfirmPost
        (passwordResetRequestPost demoState "alice@example.com" 5).1
        (getRandomString 64 5) "NewPass1" "NewPass1").2 = .ok ()
    ∧ validateToken
        (passwordResetRequestPost
          (passwordResetConfirmPost
            (passwordResetRequestPost demoState "alice@example.com" 5).1
            (getRandomString 64 5) "NewPass1" "NewPass1").1
          "alice@example.com" 7).1
        (getRandomString 64 5) = .error .tokenNotFound
    ∧ TokenError.tokenNotFound ≠ TokenError.tokenInvalid :=
  ⟨rfl, rfl, by decide⟩

/-- C8 (amended): after a successful consume of a token string stored in a
single row, and any sequence of later lifecycle operations none of whose
issues targets the owning account (such an issue would delete the row and
turn the error into not-found), validating the string fails with the
token-invalid error, and a further consume of it fails with the same error
leaving the state untouched; with the empty sequence this gives that of two
sequential consumes of the same initially valid token exactly the first
succeeds. -/
theorem consumed_token_terminal (s : DbState) (tokStr npw npwc pw2 pwc2 : String)
    (t0 : ResetToken)
    (hfil : s.resetTokens.filter (fun t => t.token == tokStr) = [t0])
    (hok : (passwordResetConfirmPost s tokStr npw npwc).2 = .ok ())
    (ops : List TokenOp)
    (hops : ∀ email entropy, TokenOp.request email entropy ∈ ops →
      requestTarget (passwordResetConfirmPost s tokStr npw npwc).1 email ≠ some t0.userId) :
    validateToken (applyOps (passwordResetConfirmPost s tokStr npw npwc).1 ops) tokStr =
      .error .tokenInvalid
    ∧ passwordResetConfirmPost
        (applyOps (passwordResetConfirmPost s tokStr npw npwc).1 ops) tokStr pw2 pwc2 =
      (applyOps (passwordResetConfirmPost s tokStr npw npwc).1 ops,
        .error (.tokenErr .tokenInvalid)) := by
  have h1 := consumed_after_confirm s tokStr npw npwc t0 hfil hok
  have h2 := consumed_pres_ops tokStr t0.userId ops _ h1 hops
  have h3 := consumed_validate _ tokStr t0.userId h2
  refine ⟨h3, ?_⟩
  generalize hS : applyOps (passwordResetConfirmPost s tokStr npw npwc).1 ops = S at h3 ⊢
  unfold passwordResetConfirmPost
  rw [h3]

/-- Witness for the C3 amended theorem at concrete inputs. -/
theorem reset_request_reveals_active_email_witness :
    (passwordResetRequestPost demoState "bob@example.com" 0).2 =
      ⟨false, "Password reset request failed",
        ["No active user found with this email address."]⟩
    ∧ (passwordResetRequestPost demoState "alice@example.com" 0).2 =
      ⟨true, "Password reset email sent successfully", []⟩ :=
  ⟨(reset_request_reveals_active_email demoState "bob@example.com" 0).1 (by decide),
   (reset_request_reveals_active_email demoState "alice@example.com" 0).2 (by decide)
     (fun t ht => absurd ht (List.not_mem_nil t))⟩

/-- Witness for the C5 theorem at concrete inputs: a wrong password, a
correct login, and a deactivated account with correct credentials. -/
theorem login_validate_distinguishes_failures_witness :
    loginValidate demoState "alice" "WrongPass" = .error .invalidCredentials
    ∧ loginValidate demoState "alice" "OldPass1" = .ok demoAlice
    ∧ loginValidate demoStateTwo "carol" "CarolPw1" = .error .accountDisabled := by
  refine ⟨?_, ?_, ?_⟩
  · exact (login_validate_distinguishes_failures demoState "alice" "WrongPass"
      (by decide) (by decide)).1 (by decide)
  · exact (login_validate_distinguishes_failures demoState "alice" "OldPass1"
      (by decide) (by decide)).2.2 demoAlice rfl rfl
  · exact (login_validate_distinguishes_failures demoStateTwo "carol" "CarolPw1"
      (by decide) (by decide)).2.1 demoCarol rfl rfl

/-- Witness for the C6 theorem at concrete inputs: an unknown token string,
and alice's stored token validated one second before and one second after
its expiry. -/
theorem validate_token_classification_witness :
    validateToken demoStateTok "missing" = .error .tokenNotFound
    ∧ validateToken { demoStateTok with now := 1999 } "tok-alpha" = .ok 1
    ∧ validateToken { demoStateTok with now := 2001 } "tok-alpha" = .error .tokenInvalid := by
  refine ⟨?_, ?_, ?_⟩
  · exact (validate_token_classification demoStateTok "missing").1.mpr rfl
  · exact ((validate_token_classification demoStateTok "tok-alpha").2.2 demoToken
      rfl rfl (by decide)).1
  · exact ((validate_token_classification demoStateTok "tok-alpha").2.2 demoToken
      rfl rfl (by decide)).2

/-- Witness for the C9 theorem at a concrete input: carol exists but is
deactivated, and her email is rejected exactly like a nonexistent one. -/
theorem reset_request_rejects_nonactive_email_witness :
    passwordResetRequestPost demoStateTwo "carol@example.com" 0 =
      (demoStateTwo, ⟨false, "Password reset request failed",
        ["No active user found with this email address."]⟩) :=
  reset_request_rejects_nonactive_email demoStateTwo "carol@example.com" 0 (by decide)

/-- Witness for the C10 theorem at concrete inputs: alice changes her
password; her old bearer token is gone and only the fresh one remains. -/
theorem password_change_rotates_bearer_tokens_witness :
    (passwordChangePost demoStateApi demoAlice "OldPass1" "NewPass9" "NewPass9"
      "freshkey").2 = .ok "freshkey"
    ∧ (passwordChangePost demoStateApi demoAlice "OldPass1" "NewPass9" "NewPass9"
        "freshkey").1.apiTokens.filter (fun t => t.userId == demoAlice.id) =
      [⟨demoAlice.id, "freshkey"⟩]
    ∧ ∀ t ∈ demoStateApi.apiTokens, t.userId = demoAlice.id →
        t ∉ (passwordChangePost demoStateApi demoAlice "OldPass1" "NewPass9" "NewPass9"
          "freshkey").1.apiTokens :=
  password_change_rotates_bearer_tokens demoStateApi demoAlice "OldPass1" "NewPass9"
    "freshkey" (by decide) (by decide)

/-- Witness for the C4 amended theorem at concrete inputs. -/
theorem second_issue_invalidates_first_token_witness :
    validateToken (passwordResetRequestPost
        (passwordResetRequestPost demoState "alice@example.com" 2).1
        "alice@example.com" 3).1 (getRandomString 64 2) = .error .tokenNotFound
    ∧ validateToken (passwordResetRequestPost
        (passwordResetRequestPost demoState "alice@example.com" 2).1
        "alice@example.com" 3).1 (getRandomString 64 3) = .ok 1 := by
  have h := second_issue_invalidates_first_token demoState "alice@example.com" 2 3 demoAlice
    (by decide) (by decide) (by decide)
    (fun t ht => absurd ht (List.not_mem_nil t))
    (fun t ht => absurd ht (List.not_mem_nil t))
  exact ⟨h.1, h.2⟩

/-- Witness for the C7 theorem at concrete inputs: a short operation
sequence from the empty store, and a concrete issue for alice. -/
theorem token_lifecycle_invariant_witness :
    (activeTokensOf (applyOps demoState [TokenOp.request "alice@example.com" 4,
        TokenOp.tick 10, TokenOp.request "alice@example.com" 6]) 1).length ≤ 1
    ∧ tokensOf (passwordResetRequestPost demoState "alice@example.com" 4).1 1 =
        [⟨1, getRandomString 64 4, false, demoState.now + 24 * 3600, demoState.now⟩]
    ∧ 64 ≤ (getRandomString 64 4).length
    ∧ (∀ c ∈ (getRandomString 64 4).toList, c.isAlphanum = true) := by
  have h := token_lifecycle_invariant demoState
    (fun uid => by simp [tokensOf, demoState])
    [TokenOp.request "alice@example.com" 4, TokenOp.tick 10,
      TokenOp.request "alice@example.com" 6] 1
    demoState "alice@example.com" 4 demoAlice (by decide) (by decide)
    (fun t ht => absurd ht (List.not_mem_nil t))
  exact h

/-- Witness for the C8 amended theorem at concrete inputs: alice's freshly
issued token is consumed, time passes, and validation still fails with the
token-invalid error. -/
theorem consumed_token_terminal_witness :
    validateToken (applyOps (passwordResetConfirmPost
        (passwordResetRequestPost demoState "alice@example.com" 8).1
        (getRandomString 64 8) "NewPass1" "NewPass1").1 [TokenOp.tick 30])
      (getRandomString 64 8) = .error .tokenInvalid := by
  have h := consumed_token_terminal
    (passwordResetRequestPost demoState "alice@example.com" 8).1
    (getRandomString 64 8) "NewPass1" "NewPass1" "OtherPw1" "OtherPw1"
    (⟨1, getRandomString 64 8, false, demoState.now + 24 * 3600, demoState.now⟩ : ResetToken)
    rfl rfl [TokenOp.tick 30]
    (by intro e n hmem; simp at hmem)
  exact h.1
